import Mathlib

/-!
Verification development for the `feat` tick-processing tool.

Shallow embedding of the bar-construction engine in `src/bars.rs`
(`time_bars`, `dollar_bars`), the daily-volatility estimator `daily_vol`
in `src/main.rs`, and the batch error aggregation of `main` in
`src/main.rs`.

Modelling conventions:
  * `f64` prices, volumes and thresholds become `ℚ` (the properties at
    stake are order/accumulation facts, stated in exact arithmetic);
  * a parsed timestamp becomes `Int` (seconds); the raw timestamp token
    of a CSV field becomes `List Nat` (its bytes, compared byte-exactly
    as the Rust code compares `Vec<u8>` slices);
  * each CSV record becomes a `Tick` carrying the fields the two policies
    read (raw token, parsed instant, minute-of-hour, last price, volume);
  * the stateful loops become explicit step functions
    (state × tick → state × emitted row) folded over tick lists;
  * fallible code becomes `Except`/`Option`; a Rust `unwrap()` panic on
    `None` is modelled as `Option.none` in the result.
-/

namespace Feat

/-- One parsed CSV tick record. `token` is the raw bytes of the timestamp
column (`tick[timestamp_index]` in the source), `dt` the parsed instant in
seconds, `minute` the instant's minute-of-hour (`date_time.minute()`),
`last` the trade price and `volume` the trade size. -/
structure Tick where
  token : List Nat
  dt : Int
  minute : Nat
  last : ℚ
  volume : ℚ
  deriving DecidableEq

/-- Models `chrono::MIN_DATETIME`, the initial `bartime` sentinel of
`time_bars` (src/bars.rs line 74): a fixed instant far in the past.  Its
exact tick count is immaterial to every property proved here. -/
def minDateTime : Int := -8334632851200

/-- The mutable locals of `time_bars` (src/bars.rs lines 69-76) that
persist across ticks: OHLC accumulator, cumulative fields, the bar-open
timestamp and the minute recorded at the last emission.  `open_` renders
the source's `open` (a Lean keyword). -/
structure TimeState where
  open_ : ℚ
  high : ℚ
  low : ℚ
  cumulative_dollar : ℚ
  cumulative_volume : ℚ
  bartime : Int
  last_printed_minute : Nat
  deriving DecidableEq

/-- One emitted time-bar row (src/bars.rs lines 119-132): the 7 output
columns `date_time,open,high,low,close,volume,cum_dollars`, with
`date_time` the rounded instant that is formatted into the row. -/
structure TimeRow where
  date_time : Int
  open_ : ℚ
  high : ℚ
  low : ℚ
  close : ℚ
  volume : ℚ
  cum_dollars : ℚ
  deriving DecidableEq

/-- Embeds `bartime.duration_round(Duration::minutes(15))`
(src/bars.rs line 124): chrono's `duration_round` for a 900-second span on
an instant in seconds.  chrono computes `delta_down = stamp % span` with
Rust's truncating `%` (`Int.tmod`), then rounds to the nearer multiple of
the span, ties away from zero. -/
def round15 (t : Int) : Int :=
  if t.tmod 900 = 0 then t
  else if t.tmod 900 < 0 then
    if -(t.tmod 900) ≤ 900 - -(t.tmod 900) then t + -(t.tmod 900)
    else t - (900 - -(t.tmod 900))
  else
    if 900 - t.tmod 900 ≤ t.tmod 900 then t + (900 - t.tmod 900)
    else t - t.tmod 900

/-- The seeding branch of the `time_bars` loop (src/bars.rs lines 102-107):
when `open == 0.0` the current tick's price becomes open/high/low and its
timestamp becomes `bartime`.  Note the source tests the numeric sentinel
`open == 0.0`, not an explicit has-open flag. -/
def timeSeed (s : TimeState) (t : Tick) : TimeState :=
  if s.open_ = 0 then
    { s with open_ := t.last, high := t.last, low := t.last, bartime := t.dt }
  else s

/-- The unconditional accumulation of the `time_bars` loop
(src/bars.rs lines 108-117): cumulative volume and dollar updates and
high/low widening. -/
def timeAbsorb (s : TimeState) (t : Tick) : TimeState :=
  { s with
    cumulative_volume := s.cumulative_volume + t.volume,
    cumulative_dollar := s.cumulative_dollar + t.last * t.volume,
    low := if t.last < s.low then t.last else s.low,
    high := if s.high < t.last then t.last else s.high }

/-- One iteration of the `time_bars` tick loop (src/bars.rs lines 97-140):
seed if not open, absorb, then emit and reset when the tick's minute is on
the interval boundary and differs from the minute of the last emission.
The emitted row's `date_time` is `bartime` rounded to 15 minutes; the
reset clears the OHLC/cumulative fields but not `bartime`. -/
def timeStep (interval : Nat) (s : TimeState) (t : Tick) :
    TimeState × Option TimeRow :=
  let s2 := timeAbsorb (timeSeed s t) t
  if t.minute % interval = 0 ∧ t.minute ≠ s.last_printed_minute then
    ({ s2 with open_ := 0, high := 0, low := 0, cumulative_dollar := 0,
               cumulative_volume := 0, last_printed_minute := t.minute },
     some { date_time := round15 s2.bartime, open_ := s2.open_,
            high := s2.high, low := s2.low, close := t.last,
            volume := s2.cumulative_volume,
            cum_dollars := s2.cumulative_dollar })
  else (s2, none)

/-- The `time_bars` tick loop folded over a tick list, returning the final
state and the emitted rows in order. -/
def timeFold (interval : Nat) (s : TimeState) :
    List Tick → TimeState × List TimeRow
  | [] => (s, [])
  | t :: ts =>
    match timeStep interval s t with
    | (s1, r) =>
      match timeFold interval s1 ts with
      | (s2, rows) => (s2, r.toList ++ rows)

/-- The initial state of a `time_bars` run (src/bars.rs lines 69-76). -/
def timeState0 : TimeState :=
  { open_ := 0, high := 0, low := 0, cumulative_dollar := 0,
    cumulative_volume := 0, bartime := minDateTime, last_printed_minute := 0 }

/-- A full `time_bars` run over a tick sequence: the rows written to the
output file after the header.  `time_bars` keeps all its state across the
files of a run and writes nothing after the tick loop ends (there is no
end-of-input flush), so a multi-file run equals the run on the
concatenated tick list. -/
def time_bars (interval : Nat) (ticks : List Tick) : List TimeRow :=
  (timeFold interval timeState0 ticks).2

/-- The minute-of-hour of each tick whose `timeStep` emitted a row, in
emission order (instrumentation of the same fold, used to state the
consecutive-boundary-minute property). -/
def timeEmitMinutes (interval : Nat) (s : TimeState) : List Tick → List Nat
  | [] => []
  | t :: ts =>
    match timeStep interval s t with
    | (s1, some _) => t.minute :: timeEmitMinutes interval s1 ts
    | (s1, none) => timeEmitMinutes interval s1 ts

/-- The fields of `BarOptions` (src/bars.rs lines 37-46) that the
aggregation itself reads; delimiter and column indices are parsing
configuration already absorbed into `Tick`. -/
structure BarOptions where
  multiply : ℚ
  dollar_threshold : ℚ
  deriving DecidableEq

/-- The mutable locals of `dollar_bars` (src/bars.rs lines 146-149, 176):
OHLC/cumulative accumulator, the raw token recorded as the bar's open
time, the previous tick's raw token (duplicate guard, initially
`Vec::new()`), and the per-file `new_bar` flag. -/
structure DollarState where
  open_ : ℚ
  high : ℚ
  low : ℚ
  close : ℚ
  cumulative_dollar : ℚ
  cumulative_volume : ℚ
  bar_open_time : List Nat
  prev_tick_timestamp : List Nat
  new_bar : Bool
  deriving DecidableEq

/-- One emitted dollar-bar row (src/bars.rs lines 206-210 and 217-221):
`date_time` is the raw `bar_open_time` token written verbatim. -/
structure DollarRow where
  date_time : List Nat
  open_ : ℚ
  high : ℚ
  low : ℚ
  close : ℚ
  volume : ℚ
  cum_dollars : ℚ
  deriving DecidableEq

/-- The seeding branch of the `dollar_bars` loop (src/bars.rs lines
180-188): on the first tick after an emission (or at file start) the
tick's raw token becomes the bar open time, its price seeds open/high/low
and the cumulative fields are cleared. -/
def dollarSeed (s : DollarState) (t : Tick) : DollarState :=
  if s.new_bar then
    { s with bar_open_time := t.token, open_ := t.last, high := t.last,
             low := t.last, cumulative_dollar := 0, cumulative_volume := 0,
             new_bar := false }
  else s

/-- The unconditional accumulation of the `dollar_bars` loop
(src/bars.rs lines 189-198): cumulative volume, notional value with the
configured multiplier, high/low widening and the running close. -/
def dollarAbsorb (opts : BarOptions) (s : DollarState) (t : Tick) : DollarState :=
  { s with
    cumulative_volume := s.cumulative_volume + t.volume,
    cumulative_dollar := s.cumulative_dollar + t.last * t.volume * opts.multiply,
    low := if t.last < s.low then t.last else s.low,
    high := if s.high < t.last then t.last else s.high,
    close := t.last }

/-- One iteration of the `dollar_bars` tick loop (src/bars.rs lines
178-214): seed on `new_bar`, absorb the tick, then emit when the
cumulative dollar value reaches the threshold and the tick's raw token
differs from the previous tick's; the duplicate-guard token is updated to
the current tick's token on every path. -/
def dollarStep (opts : BarOptions) (s : DollarState) (t : Tick) :
    DollarState × Option DollarRow :=
  let s2 := dollarAbsorb opts (dollarSeed s t) t
  if opts.dollar_threshold ≤ s2.cumulative_dollar ∧
      s.prev_tick_timestamp ≠ t.token then
    ({ s2 with prev_tick_timestamp := t.token, new_bar := true },
     some { date_time := s2.bar_open_time, open_ := s2.open_, high := s2.high,
            low := s2.low, close := s2.close, volume := s2.cumulative_volume,
            cum_dollars := s2.cumulative_dollar })
  else
    ({ s2 with prev_tick_timestamp := t.token }, none)

/-- The `dollar_bars` tick loop folded over one file's tick list. -/
def dollarFold (opts : BarOptions) (s : DollarState) :
    List Tick → DollarState × List DollarRow
  | [] => (s, [])
  | t :: ts =>
    match dollarStep opts s t with
    | (s1, r) =>
      match dollarFold opts s1 ts with
      | (s2, rows) => (s2, r.toList ++ rows)

/-- Processing one input file in `dollar_bars` (src/bars.rs lines 170-215):
`new_bar` is a per-file local initialised to `true`, the rest of the state
persists from the previous file. -/
def dollarFileRun (opts : BarOptions) (s : DollarState) (ts : List Tick) :
    DollarState × List DollarRow :=
  dollarFold opts { s with new_bar := true } ts

/-- The file loop of `dollar_bars`, in file order. -/
def dollarFilesRun (opts : BarOptions) (s : DollarState) :
    List (List Tick) → DollarState × List DollarRow
  | [] => (s, [])
  | f :: fs =>
    match dollarFileRun opts s f with
    | (s1, rows1) =>
      match dollarFilesRun opts s1 fs with
      | (s2, rows2) => (s2, rows1 ++ rows2)

/-- The initial state of a `dollar_bars` run (src/bars.rs lines 146-149). -/
def dollarState0 : DollarState :=
  { open_ := 0, high := 0, low := 0, close := 0, cumulative_dollar := 0,
    cumulative_volume := 0, bar_open_time := [], prev_tick_timestamp := [],
    new_bar := true }

/-- The unconditional trailing write of `dollar_bars`
(src/bars.rs lines 217-221): the state's current fields as one row. -/
def flushRow (s : DollarState) : DollarRow :=
  { date_time := s.bar_open_time, open_ := s.open_, high := s.high,
    low := s.low, close := s.close, volume := s.cumulative_volume,
    cum_dollars := s.cumulative_dollar }

/-- A full `dollar_bars` run over a list of input files: the in-loop
emissions followed by the unconditional end-of-input flush row. -/
def dollar_bars (opts : BarOptions) (files : List (List Tick)) :
    List DollarRow :=
  (dollarFilesRun opts dollarState0 files).2 ++
    [flushRow (dollarFilesRun opts dollarState0 files).1]

/-- One record of the bar file read by `daily_vol` (src/main.rs lines
24-33); only `date_time` (seconds) and `close` drive the estimator. -/
structure Bar where
  date_time : Int
  close : ℚ
  deriving DecidableEq

/-- The mutable locals of `daily_vol` (src/main.rs lines 54-64). -/
structure VolState where
  n_days : Nat
  ewma : Option ℚ
  sma_sum : ℚ
  day_cur : Int
  price_cur : ℚ
  deriving DecidableEq

/-- One printed row of `daily_vol` (src/main.rs line 89):
`start_date_time,end_date_time,return,ewma`, where `ewma = none` renders
as `NaN`. -/
structure VolRow where
  day_start : Int
  day_end : Int
  ret : ℚ
  ewma : Option ℚ
  deriving DecidableEq

/-- One iteration of the `daily_vol` bar loop (src/main.rs lines 68-93),
with `lookback = 20` and `smoothing = 2` as in the source.  A bar within
24 hours (86400 s) of the current day anchor is skipped entirely.  On a
rollover the day counter is bumped and the return computed; while
`n_days ≤ 20` the return joins `sma_sum`; once `n_days > 20` the EWMA is
seeded at `n_days = 21` as `sma_sum / n_days` and then the smoothing
update is applied (the source applies it at day 21 too).  `Option.getD`
stands for the source's `ewma.unwrap()`, which in a run from the initial
state is always reached with `ewma` already set. -/
def volStep (s : VolState) (b : Bar) : VolState × Option VolRow :=
  if 86400 < b.date_time - s.day_cur then
    let n := s.n_days + 1
    let ret := b.close / s.price_cur - 1
    if 20 < n then
      let e1 : Option ℚ := if n = 20 + 1 then some (s.sma_sum / (n : ℚ)) else s.ewma
      let e2 : Option ℚ :=
        some (ret * (2 / (1 + 20)) + (e1.getD 0) * (1 - 2 / (1 + 20)))
      ({ n_days := n, ewma := e2, sma_sum := s.sma_sum,
         day_cur := b.date_time, price_cur := b.close },
       some { day_start := s.day_cur, day_end := b.date_time, ret := ret,
              ewma := e2 })
    else
      ({ n_days := n, ewma := s.ewma, sma_sum := s.sma_sum + ret,
         day_cur := b.date_time, price_cur := b.close },
       some { day_start := s.day_cur, day_end := b.date_time, ret := ret,
              ewma := s.ewma })
  else (s, none)

/-- The `daily_vol` bar loop folded over the remaining records. -/
def volFold (s : VolState) : List Bar → VolState × List VolRow
  | [] => (s, [])
  | b :: bs =>
    match volStep s b with
    | (s1, r) =>
      match volFold s1 bs with
      | (s2, rows) => (s2, r.toList ++ rows)

/-- The `daily_vol` function (src/main.rs lines 52-96) on the parsed
records of the input bar file.  `bars.next().unwrap()` on an empty record stream is a
panic, modelled as `none`; otherwise the first record seeds the day
anchor and the loop runs over the rest, producing the printed rows. -/
def daily_vol (bars : List Bar) : Option (List VolRow) :=
  match bars with
  | [] => none
  | b :: rest =>
    some (volFold
      { n_days := 1, ewma := none, sma_sum := 0, day_cur := b.date_time,
        price_cur := b.close } rest).2

/-- Rust's `impl IntoIterator for Result<T, E>`: iterating a `Result`
yields the `Ok` value and nothing for an `Err`. -/
def resultIntoIter {ε α : Type _} : Except ε α → List α
  | .ok a => [a]
  | .error _ => []

/-- Rust's `Result::is_err`. -/
def isErrRes {ε α : Type _} : Except ε α → Bool
  | .ok _ => false
  | .error _ => true

/-- The batch error collection of `main` (src/main.rs lines 304-325):
`lines.map(run).filter(|res| res.is_err()).flat_map(Err).collect()`.
`Err` there is the `Result` constructor, so each failing result `r` is
wrapped as `Err(r) : Result<Box<dyn Error>, _>` and then iterated, which
yields nothing. -/
def collectBatchErrs {σ ε : Type _} (runOne : σ → Except ε Unit)
    (lines : List σ) : List ε :=
  (((lines.map runOne).filter fun r => isErrRes r).map
      fun r => (Except.error r : Except (Except ε Unit) ε)).flatMap
    resultIntoIter

/-- `ProcessingError` (src/main.rs lines 34-37): the aggregate of the
per-instrument errors of one batch. -/
structure ProcessingError (ε : Type _) where
  errs : List ε

/-- The symbol-file batch branch of `main` (src/main.rs lines 301-330):
run every line, collect the errors, return `Ok` when the collected list is
empty and the aggregate otherwise. -/
def runBarsBatch {σ ε : Type _} (runOne : σ → Except ε Unit)
    (lines : List σ) : Except (ProcessingError ε) Unit :=
  let errs := collectBatchErrs runOne lines
  if errs.isEmpty then Except.ok () else Except.error ⟨errs⟩

/-- The per-instrument outcomes a batch commits: the successes, in order
(each successful `time_bars`/`dollar_bars` call has already created and
written its output file when it returns `Ok`). -/
def committedRuns {σ ε : Type _} (runOne : σ → Except ε Unit)
    (lines : List σ) : List σ :=
  lines.filter fun l => !isErrRes (runOne l)

/-! ## Unfolding lemmas for the folds -/

theorem timeFold_cons (interval : Nat) (s : TimeState) (t : Tick) (ts : List Tick) :
    timeFold interval s (t :: ts) =
      ((timeFold interval (timeStep interval s t).1 ts).1,
       (timeStep interval s t).2.toList ++
         (timeFold interval (timeStep interval s t).1 ts).2) := by
  rw [timeFold]

theorem dollarFold_cons (opts : BarOptions) (s : DollarState) (t : Tick) (ts : List Tick) :
    dollarFold opts s (t :: ts) =
      ((dollarFold opts (dollarStep opts s t).1 ts).1,
       (dollarStep opts s t).2.toList ++
         (dollarFold opts (dollarStep opts s t).1 ts).2) := by
  rw [dollarFold]

theorem dollarFilesRun_cons (opts : BarOptions) (s : DollarState) (f : List Tick)
    (fs : List (List Tick)) :
    dollarFilesRun opts s (f :: fs) =
      ((dollarFilesRun opts (dollarFileRun opts s f).1 fs).1,
       (dollarFileRun opts s f).2 ++
         (dollarFilesRun opts (dollarFileRun opts s f).1 fs).2) := by
  rw [dollarFilesRun]

theorem volFold_cons (s : VolState) (b : Bar) (bs : List Bar) :
    volFold s (b :: bs) =
      ((volFold (volStep s b).1 bs).1,
       (volStep s b).2.toList ++ (volFold (volStep s b).1 bs).2) := by
  rw [volFold]

/-! ## Arithmetic of the 15-minute rounding -/

theorem round15_dvd (x : Int) : (900 : Int) ∣ round15 x := by
  have h : x.tmod 900 + 900 * x.tdiv 900 = x := Int.tmod_add_tdiv x 900
  unfold round15
  split_ifs
  · exact ⟨x.tdiv 900, by omega⟩
  · exact ⟨x.tdiv 900, by omega⟩
  · exact ⟨x.tdiv 900 - 1, by omega⟩
  · exact ⟨x.tdiv 900 + 1, by omega⟩
  · exact ⟨x.tdiv 900, by omega⟩

/-! ## Per-step facts about the two policies -/

theorem dollarStep_prev (opts : BarOptions) (s : DollarState) (t : Tick) :
    (dollarStep opts s t).1.prev_tick_timestamp = t.token := by
  dsimp only [dollarStep]
  split_ifs <;> rfl

theorem dollarStep_emit_threshold (opts : BarOptions) (s : DollarState) (t : Tick)
    (r : DollarRow) (h : (dollarStep opts s t).2 = some r) :
    opts.dollar_threshold ≤ r.cum_dollars := by
  dsimp only [dollarStep] at h
  split_ifs at h with hg
  · simp only [Option.some.injEq] at h
    subst h
    exact hg.1

/-! ## Batch error aggregation -/

theorem errWrapped_iter_empty {ε α : Type _} (l : List (Except ε α)) :
    (l.map fun r => (Except.error r : Except (Except ε α) ε)).flatMap
      resultIntoIter = [] := by
  induction l with
  | nil => rfl
  | cons a l ih => simp [resultIntoIter, ih]

theorem collectBatchErrs_empty {σ ε : Type _} (runOne : σ → Except ε Unit)
    (lines : List σ) : collectBatchErrs runOne lines = [] := by
  unfold collectBatchErrs
  exact errWrapped_iter_empty _

/-! ## Claim theorems -/

/-- C1, counterexample: under the time-bar policy a run whose input ends
with a partially accumulated bar (one tick at minute 5, volume 100) emits
no row at all at end of input — the held state (cumulative volume 100) is
discarded, so the run's output does not end with a flushed bar, refuting
the claim for the time-bar policy. -/
theorem time_bars_no_flush_cex :
    time_bars 15 [{ token := [], dt := 300, minute := 5, last := 10,
                    volume := 100 }] = [] ∧
    (timeFold 15 timeState0
        [{ token := [], dt := 300, minute := 5, last := 10,
           volume := 100 }]).1.cumulative_volume = 100 := by
  norm_num [time_bars, timeFold_cons, timeFold, timeStep, timeSeed,
    timeAbsorb, timeState0]

/-- C1 (amended): only the dollar-bar policy flushes at end of input —
every `dollar_bars` run's output is nonempty and ends with the
unconditional flush of whatever state is held when the input is exhausted,
even if that state was never seeded or is below threshold. -/
theorem dollar_bars_trailing_flush (opts : BarOptions)
    (files : List (List Tick)) :
    dollar_bars opts files ≠ [] ∧
    (dollar_bars opts files).getLast? =
      some (flushRow (dollarFilesRun opts dollarState0 files).1) := by
  refine ⟨?_, ?_⟩
  · simp [dollar_bars]
  · simp [dollar_bars, List.getLast?_concat]

/-- C8: the time-bar accumulator uses the numeric sentinel `open == 0.0`,
so a first tick priced exactly 0 (at instant 300) leaves the bar "not yet
open" (`open_` still 0) and the next tick (price 5 at instant 360)
re-seeds the bar, moving the recorded open boundary from 300 to 360 —
evaluating the code at the claim's failing input. -/
theorem zero_price_tick_reseeded :
    ((timeStep 15 timeState0
        { token := [], dt := 300, minute := 5, last := 0,
          volume := 10 }).1.bartime = 300 ∧
      (timeStep 15 timeState0
        { token := [], dt := 300, minute := 5, last := 0,
          volume := 10 }).1.open_ = 0) ∧
    ((timeStep 15 (timeStep 15 timeState0
        { token := [], dt := 300, minute := 5, last := 0,
          volume := 10 }).1
        { token := [], dt := 360, minute := 6, last := 5,
          volume := 20 }).1.bartime = 360 ∧
      (timeStep 15 (timeStep 15 timeState0
        { token := [], dt := 300, minute := 5, last := 0,
          volume := 10 }).1
        { token := [], dt := 360, minute := 6, last := 5,
          volume := 20 }).1.open_ = 5) := by
  norm_num [timeStep, timeSeed, timeAbsorb, timeState0]

/-- C10: `daily_vol` on a bar file with zero data records hits
`bars.next().unwrap()` on `None` and panics (modelled as `none`) instead
of returning an error value, while on any nonempty record stream it
returns normally — the `Result` interface is partial exactly at the
empty input. -/
theorem daily_vol_empty_input_none :
    daily_vol [] = none ∧
    ∀ (b : Bar) (bs : List Bar), daily_vol (b :: bs) ≠ none := by
  refine ⟨rfl, ?_⟩
  intro b bs h
  simp [daily_vol] at h

/-- C9: the batch branch's `flat_map(Err)` wraps each failing per-line
`Result` in a fresh `Err(..)` whose `Result` iterator yields nothing, so
the collected error list is always empty and a batch returns `Ok(())`
no matter how many instruments fail — here a 1-line batch whose run fails
still yields `Ok`, and in general every batch yields `Ok`, contradicting
the claimed aggregate of exactly K causes. -/
theorem batch_errors_lost :
    runBarsBatch (fun _ : Unit => (Except.error 7 : Except Nat Unit))
        [()] = Except.ok () ∧
    ∀ (σ ε : Type) (runOne : σ → Except ε Unit) (lines : List σ),
      runBarsBatch runOne lines = Except.ok () := by
  have hgen : ∀ (σ ε : Type) (runOne : σ → Except ε Unit) (lines : List σ),
      runBarsBatch runOne lines = Except.ok () := by
    intro σ ε runOne lines
    simp [runBarsBatch, collectBatchErrs_empty]
  exact ⟨hgen Unit Nat _ _, hgen⟩

/-- The failing input of C4: 21 daily bars, one every 2 days (so every bar
is a day rollover), with close prices doubling each day — all 20 daily
returns equal 1. -/
def c4Bars : List Bar :=
  (List.range 21).map fun k => { date_time := (k : Int) * 172800,
                                 close := (2 : ℚ) ^ k }

/-- C4: evaluating `daily_vol` at the failing input.  The 20 rollover rows
have returns summing to 20 (mean 1), yet the EWMA reported at day 21 is
403/441: the code seeds with `sma_sum / n_days` (19 accumulated returns
divided by 21) and then applies the smoothing update at day 21 as well,
so the reported value is not the arithmetic mean of the 20 returns. -/
theorem daily_vol_day21_not_sma :
    ((daily_vol c4Bars).getD []).length = 20 ∧
    (((daily_vol c4Bars).getD []).map VolRow.ret).sum / 20 = 1 ∧
    ((daily_vol c4Bars).getD []).getLast? =
      some { day_start := 3283200, day_end := 3456000, ret := 1,
             ewma := some (403 / 441) } ∧
    (403 / 441 : ℚ) ≠ 1 := by
  norm_num [daily_vol, c4Bars, volFold_cons, volFold, volStep,
    List.range_succ]

/-! ## Threshold invariant of the dollar-bar loop -/

theorem dollarFold_threshold (opts : BarOptions) :
    ∀ (ts : List Tick) (s : DollarState) (r : DollarRow),
      r ∈ (dollarFold opts s ts).2 → opts.dollar_threshold ≤ r.cum_dollars := by
  intro ts
  induction ts with
  | nil => intro s r hr; simp [dollarFold] at hr
  | cons t ts ih =>
    intro s r hr
    rw [dollarFold_cons] at hr
    rcases List.mem_append.1 hr with hr | hr
    · rcases hopt : (dollarStep opts s t).2 with _ | r2
      · rw [hopt] at hr; simp at hr
      · rw [hopt] at hr
        simp at hr
        subst hr
        exact dollarStep_emit_threshold opts s t _ hopt
    · exact ih _ _ hr

theorem dollarFilesRun_threshold (opts : BarOptions) :
    ∀ (files : List (List Tick)) (s : DollarState) (r : DollarRow),
      r ∈ (dollarFilesRun opts s files).2 →
        opts.dollar_threshold ≤ r.cum_dollars := by
  intro files
  induction files with
  | nil => intro s r hr; simp [dollarFilesRun] at hr
  | cons f fs ih =>
    intro s r hr
    rw [dollarFilesRun_cons] at hr
    rcases List.mem_append.1 hr with hr | hr
    · rw [dollarFileRun] at hr
      exact dollarFold_threshold opts f _ r hr
    · exact ih _ _ hr

/-- C2: every row a `dollar_bars` run emits except the final end-of-input
flushed one (i.e. every row of `dropLast`) carries a written `cum_dollars`
value at or above the configured dollar threshold, for any option set and
any input files. -/
theorem dollar_bars_threshold_inv (opts : BarOptions)
    (files : List (List Tick)) (r : DollarRow)
    (h : r ∈ (dollar_bars opts files).dropLast) :
    opts.dollar_threshold ≤ r.cum_dollars := by
  rw [dollar_bars, List.dropLast_concat] at h
  exact dollarFilesRun_threshold opts files dollarState0 r h

/-- C2 witness: the spec's concrete scenario (threshold 3000, ticks
(10,100), (20,200), (5,50)) — the single non-final emitted bar carries
cum_dollars 5000 ≥ 3000. -/
theorem dollar_bars_threshold_inv_witness :
    ({ multiply := 1, dollar_threshold := 3000 } : BarOptions).dollar_threshold
      ≤ ({ date_time := [97], open_ := 10, high := 20, low := 10, close := 20,
           volume := 300, cum_dollars := 5000 } : DollarRow).cum_dollars :=
  dollar_bars_threshold_inv { multiply := 1, dollar_threshold := 3000 }
    [[{ token := [97], dt := 0, minute := 0, last := 10, volume := 100 },
      { token := [98], dt := 0, minute := 0, last := 20, volume := 200 },
      { token := [99], dt := 0, minute := 0, last := 5, volume := 50 }]]
    { date_time := [97], open_ := 10, high := 20, low := 10, close := 20,
      volume := 300, cum_dollars := 5000 }
    (by norm_num [dollar_bars, dollarFilesRun_cons, dollarFilesRun,
      dollarFileRun, dollarFold_cons, dollarFold, dollarStep, dollarSeed,
      dollarAbsorb, dollarState0, flushRow, List.dropLast_concat])

/-- C3: the duplicate-timestamp guard of the dollar-bar loop.  From any
state, after ingesting tick `t` the guard token equals `t`'s raw token
(updated win or lose), and a consecutive tick `t2` with a byte-identical
raw token never emits — the second of two equal-token consecutive ticks is
always suppressed. -/
theorem dollar_duplicate_guard (opts : BarOptions) (s : DollarState)
    (t t2 : Tick) (h : t.token = t2.token) :
    (dollarStep opts (dollarStep opts s t).1 t2).2 = none ∧
    (dollarStep opts s t).1.prev_tick_timestamp = t.token := by
  refine ⟨?_, dollarStep_prev opts s t⟩
  have hp : (dollarStep opts s t).1.prev_tick_timestamp = t2.token := by
    rw [dollarStep_prev opts s t, h]
  generalize (dollarStep opts s t).1 = s1 at hp
  dsimp only [dollarStep]
  simp [hp]

/-- C3 witness: two consecutive ticks with the identical raw token
`[97]`; the second tick pushes the cumulative notional past the threshold
(5000 ≥ 3000) yet its emission is suppressed by the guard. -/
theorem dollar_duplicate_guard_witness :
    (dollarStep { multiply := 1, dollar_threshold := 3000 }
        (dollarStep { multiply := 1, dollar_threshold := 3000 } dollarState0
          { token := [97], dt := 0, minute := 0, last := 10,
            volume := 100 }).1
        { token := [97], dt := 0, minute := 0, last := 20,
          volume := 200 }).2 = none ∧
    (dollarStep { multiply := 1, dollar_threshold := 3000 } dollarState0
        { token := [97], dt := 0, minute := 0, last := 10,
          volume := 100 }).1.prev_tick_timestamp
      = ({ token := [97], dt := 0, minute := 0, last := 10,
           volume := 100 } : Tick).token :=
  dollar_duplicate_guard { multiply := 1, dollar_threshold := 3000 }
    dollarState0
    { token := [97], dt := 0, minute := 0, last := 10, volume := 100 }
    { token := [97], dt := 0, minute := 0, last := 20, volume := 200 }
    rfl

/-! ## Volume accounting -/

theorem dollarSeed_cumvol (s : DollarState) (t : Tick) :
    (dollarSeed s t).cumulative_volume
      = if s.new_bar then 0 else s.cumulative_volume := by
  dsimp only [dollarSeed]
  split_ifs <;> rfl

theorem dollarSeed_newbar (s : DollarState) (t : Tick) :
    (dollarSeed s t).new_bar = false := by
  dsimp only [dollarSeed]
  split_ifs with h
  · rfl
  · simpa using h

theorem dollarStep_volume (opts : BarOptions) (s : DollarState) (t : Tick) :
    (((dollarStep opts s t).2.toList.map DollarRow.volume).sum : ℚ)
      + (if (dollarStep opts s t).1.new_bar then 0
         else (dollarStep opts s t).1.cumulative_volume)
    = t.volume + (if s.new_bar then 0 else s.cumulative_volume) := by
  simp only [dollarStep]
  by_cases hg : (opts.dollar_threshold ≤
      (dollarAbsorb opts (dollarSeed s t) t).cumulative_dollar ∧
      s.prev_tick_timestamp ≠ t.token)
  · rw [if_pos hg]
    dsimp only
    simp only [Option.toList_some, List.map_cons, List.map_nil, List.sum_cons,
      List.sum_nil, if_true, add_zero]
    dsimp only [dollarAbsorb]
    rw [dollarSeed_cumvol]
    by_cases hnb : s.new_bar <;> (simp [hnb]; try ring)
  · rw [if_neg hg]
    dsimp only
    simp only [Option.toList_none, List.map_nil, List.sum_nil, zero_add]
    rw [if_neg (by simp [dollarAbsorb, dollarSeed_newbar])]
    dsimp only [dollarAbsorb]
    rw [dollarSeed_cumvol]
    by_cases hnb : s.new_bar <;> (simp [hnb]; try ring)

theorem dollarFold_volume (opts : BarOptions) :
    ∀ (ts : List Tick) (s : DollarState),
      (((dollarFold opts s ts).2.map DollarRow.volume).sum : ℚ)
        + (if (dollarFold opts s ts).1.new_bar then 0
           else (dollarFold opts s ts).1.cumulative_volume)
      = (ts.map Tick.volume).sum
        + (if s.new_bar then 0 else s.cumulative_volume) := by
  intro ts
  induction ts with
  | nil => intro s; simp [dollarFold]
  | cons t ts ih =>
    intro s
    rw [dollarFold_cons]
    simp only [List.map_append, List.sum_append, List.map_cons, List.sum_cons]
    have h1 := dollarStep_volume opts s t
    have h2 := ih (dollarStep opts s t).1
    linarith [h1, h2]

theorem timeSeed_cumvol (s : TimeState) (t : Tick) :
    (timeSeed s t).cumulative_volume = s.cumulative_volume := by
  dsimp only [timeSeed]
  split_ifs <;> rfl

theorem timeStep_volume (interval : Nat) (s : TimeState) (t : Tick) :
    (((timeStep interval s t).2.toList.map TimeRow.volume).sum : ℚ)
      + (timeStep interval s t).1.cumulative_volume
    = t.volume + s.cumulative_volume := by
  simp only [timeStep]
  by_cases hg : (t.minute % interval = 0 ∧
      t.minute ≠ s.last_printed_minute)
  · rw [if_pos hg]
    dsimp only
    simp only [Option.toList_some, List.map_cons, List.map_nil, List.sum_cons,
      List.sum_nil, add_zero]
    dsimp only [timeAbsorb]
    rw [timeSeed_cumvol]
    ring
  · rw [if_neg hg]
    dsimp only
    simp only [Option.toList_none, List.map_nil, List.sum_nil, zero_add]
    dsimp only [timeAbsorb]
    rw [timeSeed_cumvol]
    ring

theorem timeFold_volume (interval : Nat) :
    ∀ (ts : List Tick) (s : TimeState),
      (((timeFold interval s ts).2.map TimeRow.volume).sum : ℚ)
        + (timeFold interval s ts).1.cumulative_volume
      = (ts.map Tick.volume).sum + s.cumulative_volume := by
  intro ts
  induction ts with
  | nil => intro s; simp [timeFold]
  | cons t ts ih =>
    intro s
    rw [timeFold_cons]
    simp only [List.map_append, List.sum_append, List.map_cons, List.sum_cons]
    have h1 := timeStep_volume interval s t
    have h2 := ih (timeStep interval s t).1
    linarith [h1, h2]

theorem dollarFilesRun_single (opts : BarOptions) (s : DollarState)
    (ts : List Tick) : dollarFilesRun opts s [ts] = dollarFileRun opts s ts := by
  rw [dollarFilesRun_cons]
  simp [dollarFilesRun]

/-- C5, counterexample: under the time-bar policy, a file holding one tick
of volume 100 at minute 5 emits no bars at all, so the bar volume sum (0)
differs from the tick volume sum (100) — volume is not conserved. -/
theorem volume_conservation_cex :
    ((time_bars 15 [{ token := [], dt := 300, minute := 5, last := 10,
                      volume := 100 }]).map TimeRow.volume).sum
      ≠ (([{ token := [], dt := 300, minute := 5, last := 10,
             volume := 100 }] : List Tick).map Tick.volume).sum := by
  norm_num [time_bars, timeFold_cons, timeFold, timeStep, timeSeed,
    timeAbsorb, timeState0]

/-- C5 (amended): exact volume accounting.  For a single-file dollar-bar
run, the sum of emitted bar volumes equals the tick volume sum plus one
extra copy of the final state's volume exactly when the last tick
triggered an in-loop emission (the unconditional flush then repeats that
bar).  For a time-bar run, the emitted bar volume sum equals the tick
volume sum minus the volume left in the never-flushed trailing
accumulator. -/
theorem volume_accounting :
    (∀ (opts : BarOptions) (ts : List Tick),
        (((dollar_bars opts [ts]).map DollarRow.volume).sum : ℚ)
          = (ts.map Tick.volume).sum
            + (if (dollarFilesRun opts dollarState0 [ts]).1.new_bar
               then (dollarFilesRun opts dollarState0 [ts]).1.cumulative_volume
               else 0)) ∧
    (∀ (interval : Nat) (ts : List Tick),
        (((time_bars interval ts).map TimeRow.volume).sum : ℚ)
          + (timeFold interval timeState0 ts).1.cumulative_volume
        = (ts.map Tick.volume).sum) := by
  constructor
  · intro opts ts
    rw [dollar_bars, dollarFilesRun_single, dollarFileRun]
    have hs : ({ dollarState0 with new_bar := true } : DollarState)
        = dollarState0 := rfl
    rw [hs]
    have h := dollarFold_volume opts ts dollarState0
    have h0 : dollarState0.new_bar = true := rfl
    simp only [h0, if_true, add_zero] at h
    simp only [List.map_append, List.sum_append, List.map_cons, List.sum_cons,
      List.map_nil, List.sum_nil, flushRow]
    by_cases hnb : (dollarFold opts dollarState0 ts).1.new_bar
    · rw [if_pos hnb] at h ⊢
      linarith [h]
    · rw [if_neg hnb] at h ⊢
      linarith [h]
  · intro interval ts
    have h := timeFold_volume interval ts timeState0
    have h0 : (timeState0.cumulative_volume : ℚ) = 0 := rfl
    rw [h0] at h
    rw [time_bars]
    linarith [h]

/-! ## Time-bar boundary minutes -/

theorem timeStep_isSome_iff (interval : Nat) (s : TimeState) (t : Tick) :
    ((timeStep interval s t).2).isSome = true ↔
      (t.minute % interval = 0 ∧ t.minute ≠ s.last_printed_minute) := by
  dsimp only [timeStep]
  split_ifs with h <;> simp [h]

theorem timeSeed_lpm (s : TimeState) (t : Tick) :
    (timeSeed s t).last_printed_minute = s.last_printed_minute := by
  dsimp only [timeSeed]
  split_ifs <;> rfl

theorem timeStep_emit_lpm (interval : Nat) (s : TimeState) (t : Tick)
    (s1 : TimeState) (r : TimeRow)
    (h : timeStep interval s t = (s1, some r)) :
    s1.last_printed_minute = t.minute := by
  dsimp only [timeStep] at h
  split_ifs at h
  · simp only [Prod.mk.injEq] at h
    rw [← h.1]
  · simp only [Prod.mk.injEq] at h
    exact absurd h.2 (by simp)

theorem timeStep_noemit_lpm (interval : Nat) (s : TimeState) (t : Tick)
    (s1 : TimeState) (h : timeStep interval s t = (s1, none)) :
    s1.last_printed_minute = s.last_printed_minute := by
  dsimp only [timeStep] at h
  split_ifs at h
  · simp only [Prod.mk.injEq] at h
    exact absurd h.2 (by simp)
  · simp only [Prod.mk.injEq] at h
    rw [← h.1]
    exact timeSeed_lpm s t

theorem timeEmitMinutes_chain (interval : Nat) :
    ∀ (ts : List Tick) (s : TimeState),
      List.Chain' (fun a b => a ≠ b) (timeEmitMinutes interval s ts) ∧
      ∀ m ∈ (timeEmitMinutes interval s ts).head?,
        m ≠ s.last_printed_minute := by
  intro ts
  induction ts with
  | nil =>
    intro s
    refine ⟨by simp [timeEmitMinutes], by simp [timeEmitMinutes]⟩
  | cons t ts ih =>
    intro s
    rcases hstep : timeStep interval s t with ⟨s1, ropt⟩
    cases ropt with
    | some r =>
      have hlist : timeEmitMinutes interval s (t :: ts)
          = t.minute :: timeEmitMinutes interval s1 ts := by
        simp only [timeEmitMinutes, hstep]
      have hsome : ((timeStep interval s t).2).isSome = true := by
        rw [hstep]; rfl
      have hg := (timeStep_isSome_iff interval s t).1 hsome
      have hlpm : s1.last_printed_minute = t.minute :=
        timeStep_emit_lpm interval s t s1 r hstep
      obtain ⟨ihc, ihh⟩ := ih s1
      rw [hlist]
      constructor
      · rw [List.chain'_cons']
        refine ⟨?_, ihc⟩
        intro y hy
        have hne := ihh y hy
        rw [hlpm] at hne
        exact hne.symm
      · intro m hm
        simp only [List.head?_cons, Option.mem_def, Option.some.injEq] at hm
        subst hm
        exact hg.2
    | none =>
      have hlist : timeEmitMinutes interval s (t :: ts)
          = timeEmitMinutes interval s1 ts := by
        simp only [timeEmitMinutes, hstep]
      have hlpm : s1.last_printed_minute = s.last_printed_minute :=
        timeStep_noemit_lpm interval s t s1 hstep
      obtain ⟨ihc, ihh⟩ := ih s1
      rw [hlist]
      refine ⟨ihc, fun m hm => ?_⟩
      rw [← hlpm]
      exact ihh m hm

/-- C6: the time-bar emission guard and its consequence.  A `timeStep`
emits iff the tick's minute-of-hour is divisible by the configured
interval and differs from the minute recorded at the last emission; and
over any run from the initial state, the minutes of consecutive emissions
are always distinct. -/
theorem time_bar_boundary_minutes :
    (∀ (interval : Nat) (s : TimeState) (t : Tick),
        ((timeStep interval s t).2).isSome = true ↔
          (t.minute % interval = 0 ∧ t.minute ≠ s.last_printed_minute)) ∧
    ∀ (interval : Nat) (ticks : List Tick),
      List.Chain' (fun a b => a ≠ b)
        (timeEmitMinutes interval timeState0 ticks) :=
  ⟨timeStep_isSome_iff,
   fun interval ticks => (timeEmitMinutes_chain interval ticks timeState0).1⟩

/-- C7: every emitted time bar reports as its `date_time` the held
`bartime` (the open timestamp recorded at seeding) rounded with the fixed
15-minute `round15`, for every configured interval value — and that
reported instant is always a multiple of 900 seconds, regardless of the
interval. -/
theorem time_bar_open_time_rounded (interval : Nat) (s : TimeState)
    (t : Tick) (r : TimeRow) (h : (timeStep interval s t).2 = some r) :
    r.date_time = round15 (timeSeed s t).bartime ∧
    (900 : Int) ∣ r.date_time := by
  dsimp only [timeStep] at h
  split_ifs at h
  · simp only [Option.some.injEq] at h
    subst h
    exact ⟨rfl, round15_dvd _⟩

/-- C7 witness: a tick at instant 1000, minute 15, with interval 15: the
emitted bar reports date_time 900 = round15 1000, a multiple of 900. -/
theorem time_bar_open_time_rounded_witness :
    ({ date_time := 900, open_ := 10, high := 10, low := 10, close := 10,
       volume := 5, cum_dollars := 50 } : TimeRow).date_time
        = round15 (timeSeed timeState0
            { token := [], dt := 1000, minute := 15, last := 10,
              volume := 5 }).bartime ∧
    (900 : Int) ∣ (⟨900, 10, 10, 10, 10, 5, 50⟩ : TimeRow).date_time :=
  time_bar_open_time_rounded 15 timeState0
    { token := [], dt := 1000, minute := 15, last := 10, volume := 5 }
    { date_time := 900, open_ := 10, high := 10, low := 10, close := 10,
      volume := 5, cum_dollars := 50 }
    (by norm_num [timeStep, timeSeed, timeAbsorb, timeState0, round15,
      Int.tmod])

end Feat
